import Mathlib

/-!
Verification development for the `stockfish-components` UI component library
(src/src/components/TimeTable.tsx and src/src/components/TextEditor.tsx).

Modelling conventions:
* JavaScript strings handled by the timetable are modelled as lists of UTF-16
  code units (`List Nat`); JavaScript's relational operators on strings are
  lexicographic comparison of code units, embedded as `jsLtb` below.
* Editor strings (tag names, text node data, commands, URLs) are modelled as
  `List Char`; the characters relevant to the claims are all in the BMP, where
  one `Char` corresponds to one UTF-16 code unit.
* The DOM tree of the editable region is modelled explicitly (`Node`), with a
  single-container model of DOM ranges: the claims only exercise ranges whose
  start and end share a container, which matches `commonAncestorContainer`.
* Arithmetic on times uses `Nat`/`Int`/`Rat`.  The layout percentages are
  ratios of small integers, which IEEE doubles represent with enough precision
  that the rational model agrees with the floating-point code on every
  comparison appearing in the claims.
-/

namespace StockfishComponents

/-! ### JavaScript string comparison (lexicographic on UTF-16 code units) -/

/-- JavaScript `a < b` on strings: lexicographic comparison of code units,
with a proper prefix comparing smaller. -/
def jsLtb : List Nat → List Nat → Bool
  | [], [] => false
  | [], _ :: _ => true
  | _ :: _, [] => false
  | a :: as, b :: bs => if a < b then true else if b < a then false else jsLtb as bs

/-- JavaScript `a > b` on strings. -/
def jsGtb (a b : List Nat) : Bool := jsLtb b a

/-- JavaScript `a >= b` on strings (`!(a < b)` for non-NaN operands). -/
def jsGeb (a b : List Nat) : Bool := !(jsLtb a b)

/-- JavaScript `a <= b` on strings (`!(b < a)` for non-NaN operands). -/
def jsLeb (a b : List Nat) : Bool := !(jsLtb b a)

theorem jsLtb_irrefl (a : List Nat) : jsLtb a a = false := by
  induction a with
  | nil => rfl
  | cons x xs ih => simp [jsLtb, ih]

theorem jsLtb_trans {a b c : List Nat} (hab : jsLtb a b = true)
    (hbc : jsLtb b c = true) : jsLtb a c = true := by
  induction a generalizing b c with
  | nil =>
    cases b with
    | nil => simp [jsLtb] at hab
    | cons y ys =>
      cases c with
      | nil => simp [jsLtb] at hbc
      | cons z zs => simp [jsLtb]
  | cons x xs ih =>
    cases b with
    | nil => simp [jsLtb] at hab
    | cons y ys =>
      cases c with
      | nil => simp [jsLtb] at hbc
      | cons z zs =>
        simp only [jsLtb] at hab hbc ⊢
        by_cases hxy : x < y
        · by_cases hyz : y < z
          · have hxz : x < z := Nat.lt_trans hxy hyz
            simp [hxz]
          · by_cases hzy : z < y
            · simp [hyz, hzy] at hbc
            · have hyez : y = z := Nat.le_antisymm (Nat.le_of_not_lt hzy) (Nat.le_of_not_lt hyz)
              subst hyez
              simp [hxy]
        · by_cases hyx : y < x
          · simp [hxy, hyx] at hab
          · have hxey : x = y := Nat.le_antisymm (Nat.le_of_not_lt hyx) (Nat.le_of_not_lt hxy)
            subst hxey
            simp only [hxy, if_neg (lt_irrefl x), if_neg] at hab
            by_cases hyz : x < z
            · simp [hyz]
            · by_cases hzy : z < x
              · simp [hyz, hzy] at hbc
              · have : x = z := Nat.le_antisymm (Nat.le_of_not_lt hzy) (Nat.le_of_not_lt hyz)
                subst this
                simp only [if_neg (lt_irrefl x)] at hbc ⊢
                exact ih hab hbc

theorem jsLtb_asymm {a b : List Nat} (h : jsLtb a b = true) : jsLtb b a = false := by
  by_contra hc
  have hba : jsLtb b a = true := by
    cases hh : jsLtb b a with
    | false => exact absurd hh hc
    | true => rfl
  have := jsLtb_trans h hba
  rw [jsLtb_irrefl] at this
  exact Bool.false_ne_true this

theorem jsLtb_conn {a b : List Nat} (hab : jsLtb a b = false)
    (hba : jsLtb b a = false) : a = b := by
  induction a generalizing b with
  | nil =>
    cases b with
    | nil => rfl
    | cons y ys => simp [jsLtb] at hab
  | cons x xs ih =>
    cases b with
    | nil => simp [jsLtb] at hba
    | cons y ys =>
      simp only [jsLtb] at hab hba
      by_cases hxy : x < y
      · simp [hxy] at hab
      · by_cases hyx : y < x
        · simp [hxy, hyx] at hba
        · have hxey : x = y := Nat.le_antisymm (Nat.le_of_not_lt hyx) (Nat.le_of_not_lt hxy)
          subst hxey
          simp only [if_neg (lt_irrefl x)] at hab hba
          rw [ih hab hba]

/-! ### Time strings and parsing (TimeTable.tsx) -/

/-- JavaScript `String.prototype.split(":")` on code-unit lists (`:` is 58). -/
def splitColon : List Nat → List (List Nat)
  | [] => [[]]
  | c :: cs =>
    if c = 58 then [] :: splitColon cs
    else
      match splitColon cs with
      | [] => [[c]]
      | g :: gs => (c :: g) :: gs

/-- JavaScript `Number` on a string of decimal digits (the only inputs the
claims exercise; non-digit inputs yield `NaN` in JavaScript, outside this
model). -/
def toNum (l : List Nat) : Nat := l.foldl (fun acc c => acc * 10 + (c - 48)) 0

/-- `const [hours, minutes] = time.split(":").map(Number); hours * 60 + minutes`
— the parsing step shared by `isTimeInRange`, `timeToPosition` and
`calculateHeight` (seconds, when present, are ignored by the destructuring).
A string without a `:` yields `NaN` in JavaScript; the model returns 0 there
and is only used on well-formed times. -/
def parseTime (t : List Nat) : Nat :=
  match splitColon t with
  | h :: m :: _ => toNum h * 60 + toNum m
  | _ => 0

/-- The two-digit zero-padded rendering of `n < 100` as code units. -/
def fmt2 (n : Nat) : List Nat := [48 + n / 10, 48 + n % 10]

/-- A well-formed `"HH:MM"` time string for hour `h` and minute `m`. -/
def fmtHM (h m : Nat) : List Nat := fmt2 h ++ 58 :: fmt2 m

/-- A well-formed `"HH:MM:SS"` time string. -/
def fmtHMS (h m s : Nat) : List Nat := fmtHM h m ++ 58 :: fmt2 s

/-- A time string is a well-formed `"HH:MM"` clock value. -/
def wfHM (t : List Nat) : Prop := ∃ h m, h < 24 ∧ m < 60 ∧ t = fmtHM h m

theorem splitColon_append_noColon {l : List Nat} (hl : ∀ c ∈ l, c ≠ 58)
    (rest : List Nat) : splitColon (l ++ 58 :: rest) = l :: splitColon rest := by
  induction l with
  | nil => simp [splitColon]
  | cons c cs ih =>
    have hc : c ≠ 58 := hl c (List.mem_cons_self c cs)
    have hcs : ∀ x ∈ cs, x ≠ 58 := fun x hx => hl x (List.mem_cons_of_mem c hx)
    simp only [List.cons_append, splitColon, if_neg hc]
    rw [List.append_eq, ih hcs]

theorem splitColon_noColon {l : List Nat} (hl : ∀ c ∈ l, c ≠ 58) :
    splitColon l = [l] := by
  induction l with
  | nil => rfl
  | cons c cs ih =>
    have hc : c ≠ 58 := hl c (List.mem_cons_self c cs)
    have hcs : ∀ x ∈ cs, x ≠ 58 := fun x hx => hl x (List.mem_cons_of_mem c hx)
    simp only [splitColon, if_neg hc, ih hcs]

theorem fmt2_noColon {n : Nat} (hn : n ≤ 99) : ∀ c ∈ fmt2 n, c ≠ 58 := by
  intro c hc
  simp only [fmt2, List.mem_cons, List.mem_singleton] at hc
  rcases hc with h | h | h
  · subst h; omega
  · subst h; omega
  · exact absurd h (List.not_mem_nil c)

theorem toNum_fmt2 (n : Nat) : toNum (fmt2 n) = n := by
  simp only [toNum, fmt2, List.foldl]
  omega

theorem parseTime_fmtHM {h m : Nat} (hh : h ≤ 99) (hm : m ≤ 99) :
    parseTime (fmtHM h m) = 60 * h + m := by
  simp only [parseTime, fmtHM, splitColon_append_noColon (fmt2_noColon hh) (fmt2 m),
    splitColon_noColon (fmt2_noColon hm), toNum_fmt2]
  omega

theorem parseTime_fmtHMS {h m s : Nat} (hh : h ≤ 99) (hm : m ≤ 99) (hs : s ≤ 99) :
    parseTime (fmtHMS h m s) = 60 * h + m := by
  simp only [parseTime, fmtHMS, fmtHM, List.append_assoc, List.cons_append,
    splitColon_append_noColon (fmt2_noColon hh)]
  simp only [splitColon_append_noColon (fmt2_noColon hm) (fmt2 s), toNum_fmt2]
  omega

/-- Lexicographic comparison of two well-formed `"HH:MM"` strings agrees with
comparison of their minute-since-midnight values (for minutes below 60). -/
theorem jsLtb_fmtHM_iff {h1 m1 h2 m2 : Nat} (hm1 : m1 < 60) (hm2 : m2 < 60) :
    jsLtb (fmtHM h1 m1) (fmtHM h2 m2) = true ↔ 60 * h1 + m1 < 60 * h2 + m2 := by
  simp only [fmtHM, fmt2, List.cons_append, List.nil_append, jsLtb]
  split_ifs <;> simp_all <;> omega

theorem jsLeb_fmtHM_iff {h1 m1 h2 m2 : Nat} (hm1 : m1 < 60) (hm2 : m2 < 60) :
    jsLeb (fmtHM h1 m1) (fmtHM h2 m2) = true ↔ 60 * h1 + m1 ≤ 60 * h2 + m2 := by
  rw [jsLeb, Bool.not_eq_true', ← Bool.not_eq_true, jsLtb_fmtHM_iff hm2 hm1]
  omega

/-! ### The Schedule data model and the TimeTable layout functions -/

/-- The `Schedule` record of TimeTable.tsx (all strings as code-unit lists). -/
structure Schedule where
  id : Int
  day : List Nat
  startTime : List Nat
  endTime : List Nat
  courseName : List Nat
  classroomName : List Nat
  color : Option (List Nat) := none
  description : Option (List Nat) := none
deriving DecidableEq, Repr

/-- `isTimeInRange` (TimeTable.tsx lines 59-67): parse the three times to
minutes since midnight and test inclusion in the closed interval. -/
def isTimeInRange (time startT endT : List Nat) : Bool :=
  let timeInMinutes := parseTime time
  let startInMinutes := parseTime startT
  let endInMinutes := parseTime endT
  decide (startInMinutes ≤ timeInMinutes) && decide (timeInMinutes ≤ endInMinutes)

/-- `timeToPosition` (lines 69-79): percentage offset of a time within the
visible window, as exact rational arithmetic. -/
def timeToPosition (time startT endT : List Nat) : ℚ :=
  let totalMinutes : ℤ := parseTime time
  let startOfDay : ℤ := parseTime startT
  let endOfDay : ℤ := parseTime endT
  (((totalMinutes - startOfDay : ℤ) : ℚ) / ((endOfDay - startOfDay : ℤ) : ℚ)) * 100

/-- `calculateHeight` (lines 81-91): percentage height of an event within the
visible window. -/
def calculateHeight (startT endT dayStartT dayEndT : List Nat) : ℚ :=
  let durationInMinutes : ℤ := (parseTime endT : ℤ) - (parseTime startT : ℤ)
  let totalDayMinutes : ℤ := (parseTime dayEndT : ℤ) - (parseTime dayStartT : ℤ)
  ((durationInMinutes : ℚ) / (totalDayMinutes : ℚ)) * 100

/-- The height style actually applied to an event card (line 273):
`Math.max(height, compact ? 8 : 10)`. -/
def renderedHeightPct (compact : Bool) (e : Schedule) (ws we : List Nat) : ℚ :=
  max (calculateHeight e.startTime e.endTime ws we) (if compact then 8 else 10)

/-- The overlap predicate inside `findOverlappingEvents` (lines 149-158).
JavaScript compares the `"HH:MM"`/`"HH:MM:SS"` strings directly with the
relational operators, i.e. lexicographically by code units. -/
def overlapsB (currentEvent event : Schedule) : Bool :=
  (jsGeb event.startTime currentEvent.startTime &&
     jsLtb event.startTime currentEvent.endTime) ||
  (jsGtb event.endTime currentEvent.startTime &&
     jsLeb event.endTime currentEvent.endTime) ||
  (jsLeb event.startTime currentEvent.startTime &&
     jsGeb event.endTime currentEvent.endTime)

/-- `findOverlappingEvents` (lines 145-159). -/
def findOverlappingEvents (currentEvent : Schedule) (dayEvents : List Schedule) :
    List Schedule :=
  dayEvents.filter fun event =>
    (event.id != currentEvent.id) && overlapsB currentEvent event

/-- `isEventVisible` (lines 161-164). -/
def isEventVisible (e : Schedule) (startT endT : List Nat) : Bool :=
  isTimeInRange e.startTime startT endT && isTimeInRange e.endTime startT endT

/-- ASCII fragment of `String.prototype.toUpperCase` on a code unit (the day
labels exercised by the claims are ASCII). -/
def toUpperCU (c : Nat) : Nat := if 97 ≤ c ∧ c ≤ 122 then c - 32 else c

/-- Day bucketing (lines 233-235):
`event.day.toUpperCase().startsWith(day.name.toUpperCase())`. -/
def dayMatches (event : Schedule) (dayName : List Nat) : Bool :=
  List.isPrefixOf (dayName.map toUpperCU) (event.day.map toUpperCU)

/-- The events rendered in a day column (line 242): the day's bucket filtered
by `isEventVisible`. -/
def visibleDayEvents (scheduleData : List Schedule) (dayName ws we : List Nat) :
    List Schedule :=
  (scheduleData.filter fun ev => dayMatches ev dayName).filter fun ev =>
    isEventVisible ev ws we

/-- The spec's three-way minute-interval overlap test, written from the spec's
words: `O.start ∈ [E.start, E.end) OR O.end ∈ (E.start, E.end] OR
(O.start ≤ E.start AND O.end ≥ E.end)` on minute-since-midnight values. -/
def specThreeWayOverlap (E O : Schedule) : Prop :=
  let Es := parseTime E.startTime
  let Ee := parseTime E.endTime
  let Os := parseTime O.startTime
  let Oe := parseTime O.endTime
  (Es ≤ Os ∧ Os < Ee) ∨ (Es < Oe ∧ Oe ≤ Ee) ∨ (Os ≤ Es ∧ Ee ≤ Oe)

instance (E O : Schedule) : Decidable (specThreeWayOverlap E O) := by
  unfold specThreeWayOverlap
  infer_instance

/-! ### Claim C5: visibility filter -/

/-- C5: an event is rendered in a day column iff it buckets into the day and
both its start and end minute-values lie in `[windowStart, windowEnd]`
inclusive; an event whose start/end strings equal the window bounds is
visible, and an event whose end minute-value is one past the window end is
dropped entirely. -/
theorem c5_visibility_window (e : Schedule) (data : List Schedule)
    (dayName ws we : List Nat) :
    (e ∈ visibleDayEvents data dayName ws we ↔
      e ∈ data ∧ dayMatches e dayName = true ∧
      (parseTime ws ≤ parseTime e.startTime ∧ parseTime e.startTime ≤ parseTime we) ∧
      (parseTime ws ≤ parseTime e.endTime ∧ parseTime e.endTime ≤ parseTime we)) ∧
    (e.startTime = ws → e.endTime = we → parseTime ws ≤ parseTime we →
      isEventVisible e ws we = true) ∧
    (parseTime e.endTime = parseTime we + 1 → isEventVisible e ws we = false) := by
  refine ⟨?_, ?_, ?_⟩
  · simp only [visibleDayEvents, List.mem_filter, isEventVisible, isTimeInRange,
      Bool.and_eq_true, decide_eq_true_eq]
    tauto
  · intro h1 h2 h3
    simp only [isEventVisible, isTimeInRange, h1, h2, Bool.and_eq_true, decide_eq_true_eq]
    omega
  · intro h1
    have h2 : isTimeInRange e.endTime ws we = false := by
      simp only [isTimeInRange, h1, Bool.and_eq_false_iff, decide_eq_false_iff_not]
      omega
    simp [isEventVisible, h2]

theorem c5_visibility_window_witness :
    (fmtHM 8 0 = fmtHM 8 0 ∧ fmtHM 9 0 = fmtHM 9 0 ∧
      parseTime (fmtHM 8 0) ≤ parseTime (fmtHM 9 0)) ∧
    isEventVisible ⟨1, [], fmtHM 8 0, fmtHM 9 0, [], [], none, none⟩
      (fmtHM 8 0) (fmtHM 9 0) = true :=
  ⟨⟨rfl, rfl, by decide⟩,
    (c5_visibility_window ⟨1, [], fmtHM 8 0, fmtHM 9 0, [], [], none, none⟩ []
      [] (fmtHM 8 0) (fmtHM 9 0)).2.1 rfl rfl (by decide)⟩

/-! ### Claim C10: rendered height floor -/

/-- C10: the height style applied to an event card is
`max(computed height, 8)` in compact mode and `max(computed height, 10)` in
normal mode, so the rendered height is at least the floor and never negative,
even when the computed height is zero or negative. -/
theorem c10_height_floor (compact : Bool) (e : Schedule) (ws we : List Nat) :
    renderedHeightPct compact e ws we
        = max (calculateHeight e.startTime e.endTime ws we)
            (if compact then 8 else 10) ∧
    (if compact then (8 : ℚ) else 10) ≤ renderedHeightPct compact e ws we ∧
    0 < renderedHeightPct compact e ws we := by
  refine ⟨rfl, le_max_right _ _, ?_⟩
  have h0 : (0 : ℚ) < if compact then 8 else 10 := by cases compact <;> norm_num
  exact lt_of_lt_of_le h0 (le_max_right _ _)

/-! ### Claim C6: position mapping -/

/-- C6: for a visible event, the computed top percentage is
`(startMin - windowStartMin) / (windowEndMin - windowStartMin) * 100`, the
computed height percentage is
`(endMin - startMin) / (windowEndMin - windowStartMin) * 100`, and the height
actually rendered is floored at 8% (compact) resp. 10% (normal). -/
theorem c6_position_mapping (e : Schedule) (compact : Bool)
    (h m he me wsh wsm weh wem : ℕ)
    (hh : h ≤ 99) (hm : m ≤ 99) (hhe : he ≤ 99) (hme : me ≤ 99)
    (hwsh : wsh ≤ 99) (hwsm : wsm ≤ 99) (hweh : weh ≤ 99) (hwem : wem ≤ 99)
    (hst : e.startTime = fmtHM h m) (hen : e.endTime = fmtHM he me)
    (hvis : isEventVisible e (fmtHM wsh wsm) (fmtHM weh wem) = true) :
    timeToPosition e.startTime (fmtHM wsh wsm) (fmtHM weh wem)
        = (((60 * h + m : ℕ) : ℚ) - ((60 * wsh + wsm : ℕ) : ℚ))
            / (((60 * weh + wem : ℕ) : ℚ) - ((60 * wsh + wsm : ℕ) : ℚ)) * 100 ∧
    calculateHeight e.startTime e.endTime (fmtHM wsh wsm) (fmtHM weh wem)
        = (((60 * he + me : ℕ) : ℚ) - ((60 * h + m : ℕ) : ℚ))
            / (((60 * weh + wem : ℕ) : ℚ) - ((60 * wsh + wsm : ℕ) : ℚ)) * 100 ∧
    renderedHeightPct compact e (fmtHM wsh wsm) (fmtHM weh wem)
        = max (calculateHeight e.startTime e.endTime (fmtHM wsh wsm) (fmtHM weh wem))
            (if compact then 8 else 10) := by
  refine ⟨?_, ?_, rfl⟩
  · simp only [timeToPosition, hst, parseTime_fmtHM hh hm, parseTime_fmtHM hwsh hwsm,
      parseTime_fmtHM hweh hwem]
    push_cast
    ring
  · simp only [calculateHeight, hst, hen, parseTime_fmtHM hh hm, parseTime_fmtHM hhe hme,
      parseTime_fmtHM hwsh hwsm, parseTime_fmtHM hweh hwem]
    push_cast
    ring

theorem c6_position_mapping_witness :
    timeToPosition (fmtHM 8 0) (fmtHM 7 0) (fmtHM 16 0)
        = (((60 * 8 + 0 : ℕ) : ℚ) - ((60 * 7 + 0 : ℕ) : ℚ))
            / (((60 * 16 + 0 : ℕ) : ℚ) - ((60 * 7 + 0 : ℕ) : ℚ)) * 100 :=
  (c6_position_mapping ⟨1, [], fmtHM 8 0, fmtHM 9 0, [], [], none, none⟩ false
    8 0 9 0 7 0 16 0 (by norm_num) (by norm_num) (by norm_num) (by norm_num)
    (by norm_num) (by norm_num) (by norm_num) (by norm_num) rfl rfl (by decide)).1

/-! ### Claim C8: position monotonicity -/

/-- C8: for two events on the same day with proper intervals, where A ends no
later than B starts, A's computed top percentage is strictly smaller than B's
(for a window with positive extent). -/
theorem c8_position_monotonic (A B : Schedule) (d ws we : List Nat)
    (hdA : dayMatches A d = true) (hdB : dayMatches B d = true)
    (hA : parseTime A.startTime < parseTime A.endTime)
    (hB : parseTime B.startTime < parseTime B.endTime)
    (hAB : parseTime A.endTime ≤ parseTime B.startTime)
    (hw : parseTime ws < parseTime we) :
    timeToPosition A.startTime ws we < timeToPosition B.startTime ws we := by
  simp only [timeToPosition]
  have hDz : (0 : ℤ) < (parseTime we : ℤ) - (parseTime ws : ℤ) := by omega
  have hD : (0 : ℚ) < (((parseTime we : ℤ) - (parseTime ws : ℤ) : ℤ) : ℚ) := by
    exact_mod_cast hDz
  have hxz : (parseTime A.startTime : ℤ) - (parseTime ws : ℤ)
      < (parseTime B.startTime : ℤ) - (parseTime ws : ℤ) := by omega
  have hx : (((parseTime A.startTime : ℤ) - (parseTime ws : ℤ) : ℤ) : ℚ)
      < (((parseTime B.startTime : ℤ) - (parseTime ws : ℤ) : ℤ) : ℚ) := by
    exact_mod_cast hxz
  have h100 : (0 : ℚ) < 100 := by norm_num
  exact mul_lt_mul_of_pos_right (div_lt_div_of_pos_right hx hD) h100

theorem c8_position_monotonic_witness :
    timeToPosition (fmtHM 8 0) (fmtHM 7 0) (fmtHM 16 0)
      < timeToPosition (fmtHM 9 30) (fmtHM 7 0) (fmtHM 16 0) :=
  c8_position_monotonic
    ⟨1, [83, 97, 116], fmtHM 8 0, fmtHM 9 0, [], [], none, none⟩
    ⟨2, [83, 97, 116], fmtHM 9 30, fmtHM 10 30, [], [], none, none⟩
    [83, 97, 116] (fmtHM 7 0) (fmtHM 16 0)
    (by decide) (by decide) (by decide) (by decide) (by decide) (by decide)

/-! ### Claim C7: overlap symmetry -/

theorem bool_eq_false {b : Bool} (h : ¬ b = true) : b = false := by
  cases b
  · rfl
  · exact absurd rfl h

/-- For proper intervals (in the string order the code uses), the code's
three-way test is equivalent to strict interval intersection. -/
theorem overlapsB_iff_strict (A B : Schedule)
    (hA : jsLtb A.startTime A.endTime = true)
    (hB : jsLtb B.startTime B.endTime = true) :
    overlapsB A B = true ↔
      (jsLtb B.startTime A.endTime = true ∧ jsLtb A.startTime B.endTime = true) := by
  simp only [overlapsB, jsGeb, jsGtb, jsLeb, Bool.or_eq_true, Bool.and_eq_true,
    Bool.not_eq_true']
  constructor
  · rintro ((⟨h1, h2⟩ | ⟨h1, h2⟩) | ⟨h1, h2⟩)
    · refine ⟨h2, ?_⟩
      by_cases hc : jsLtb A.startTime B.startTime = true
      · exact jsLtb_trans hc hB
      · have : A.startTime = B.startTime :=
          jsLtb_conn (bool_eq_false hc) h1
        rw [this]
        exact hB
    · refine ⟨?_, h1⟩
      by_cases hc : jsLtb B.endTime A.endTime = true
      · exact jsLtb_trans hB hc
      · have : A.endTime = B.endTime := jsLtb_conn h2 (bool_eq_false hc)
        rw [← this] at hB
        exact hB
    · constructor
      · by_cases hc : jsLtb B.startTime A.startTime = true
        · exact jsLtb_trans hc hA
        · have : A.startTime = B.startTime :=
            jsLtb_conn h1 (bool_eq_false hc)
          rw [← this]
          exact hA
      · by_cases hc : jsLtb A.endTime B.endTime = true
        · exact jsLtb_trans hA hc
        · have : B.endTime = A.endTime :=
            jsLtb_conn h2 (bool_eq_false hc)
          rw [this]
          exact hA
  · rintro ⟨h1, h2⟩
    by_cases hs : jsLtb B.startTime A.startTime = true
    · by_cases he : jsLtb A.endTime B.endTime = true
      · exact Or.inr ⟨jsLtb_asymm hs, jsLtb_asymm he⟩
      · exact Or.inl (Or.inr ⟨h2, bool_eq_false he⟩)
    · exact Or.inl (Or.inl ⟨bool_eq_false hs, h1⟩)

/-- C7: for events A and B in the same day bucket, each with
`startTime < endTime` (in the comparison order the code uses), A is reported
as overlapping B iff B is reported as overlapping A. -/
theorem c7_overlap_symmetric (A B : Schedule) (l : List Schedule)
    (hA : jsLtb A.startTime A.endTime = true)
    (hB : jsLtb B.startTime B.endTime = true)
    (hAl : A ∈ l) (hBl : B ∈ l) :
    (B ∈ findOverlappingEvents A l ↔ A ∈ findOverlappingEvents B l) := by
  simp only [findOverlappingEvents, List.mem_filter, Bool.and_eq_true, bne_iff_ne,
    ne_eq, overlapsB_iff_strict A B hA hB, overlapsB_iff_strict B A hB hA]
  constructor
  · rintro ⟨_, hid, hov⟩
    exact ⟨hAl, fun hh => hid hh.symm, hov.2, hov.1⟩
  · rintro ⟨_, hid, hov⟩
    exact ⟨hBl, fun hh => hid hh.symm, hov.2, hov.1⟩

theorem c7_overlap_symmetric_witness :
    (⟨2, [], fmtHM 8 30, fmtHM 9 30, [], [], none, none⟩ : Schedule) ∈
        findOverlappingEvents ⟨1, [], fmtHM 8 0, fmtHM 9 0, [], [], none, none⟩
          [⟨1, [], fmtHM 8 0, fmtHM 9 0, [], [], none, none⟩,
           ⟨2, [], fmtHM 8 30, fmtHM 9 30, [], [], none, none⟩] ↔
      (⟨1, [], fmtHM 8 0, fmtHM 9 0, [], [], none, none⟩ : Schedule) ∈
        findOverlappingEvents ⟨2, [], fmtHM 8 30, fmtHM 9 30, [], [], none, none⟩
          [⟨1, [], fmtHM 8 0, fmtHM 9 0, [], [], none, none⟩,
           ⟨2, [], fmtHM 8 30, fmtHM 9 30, [], [], none, none⟩] :=
  c7_overlap_symmetric _ _ _ (by decide) (by decide)
    (by simp) (by simp)

/-! ### Claim C1: overlap detection vs. the minute-interval test -/

theorem jsLtb_fmtHM_eq_false_iff {h1 m1 h2 m2 : Nat} (hm1 : m1 < 60) (hm2 : m2 < 60) :
    jsLtb (fmtHM h1 m1) (fmtHM h2 m2) = false ↔ 60 * h2 + m2 ≤ 60 * h1 + m1 := by
  rw [← Bool.not_eq_true, jsLtb_fmtHM_iff hm1 hm2]
  omega

/-- C1 counterexample: the code compares the raw time *strings* with
JavaScript's relational operators, not minute values.  With
`E = ("08:30", "09:30:00")` and `O = ("09:30", "10:30")` the minute intervals
`[510, 570]` and `[570, 630]` do not intersect under the three-way test, yet
`findOverlappingEvents` reports `O` as overlapping `E` because
`"09:30" < "09:30:00"` lexicographically. -/
theorem c1_counterexample :
    (⟨2, [], fmtHM 9 30, fmtHM 10 30, [], [], none, none⟩ : Schedule) ∈
        findOverlappingEvents ⟨1, [], fmtHM 8 30, fmtHMS 9 30 0, [], [], none, none⟩
          [⟨1, [], fmtHM 8 30, fmtHMS 9 30 0, [], [], none, none⟩,
           ⟨2, [], fmtHM 9 30, fmtHM 10 30, [], [], none, none⟩] ∧
      ¬ specThreeWayOverlap
          ⟨1, [], fmtHM 8 30, fmtHMS 9 30 0, [], [], none, none⟩
          ⟨2, [], fmtHM 9 30, fmtHM 10 30, [], [], none, none⟩ := by
  constructor
  · decide
  · decide

/-- C1 (amended): when all four time strings are well-formed `"HH:MM"`
strings (no seconds), `findOverlappingEvents E set` contains exactly those
events `O` of `set` with `O.id ≠ E.id` whose minute intervals intersect per
the three-way test; with mixed `"HH:MM:SS"` formats the string comparison the
code performs can disagree with the minute test. -/
theorem c1_overlap_amended (E O : Schedule) (l : List Schedule)
    (hEs : wfHM E.startTime) (hEe : wfHM E.endTime)
    (hOs : wfHM O.startTime) (hOe : wfHM O.endTime) :
    (O ∈ findOverlappingEvents E l ↔
      O ∈ l ∧ O.id ≠ E.id ∧ specThreeWayOverlap E O) := by
  obtain ⟨a1, b1, ha1, hb1, e1⟩ := hEs
  obtain ⟨a2, b2, ha2, hb2, e2⟩ := hEe
  obtain ⟨a3, b3, ha3, hb3, e3⟩ := hOs
  obtain ⟨a4, b4, ha4, hb4, e4⟩ := hOe
  rw [findOverlappingEvents, List.mem_filter]
  refine and_congr_right fun _ => ?_
  simp only [Bool.and_eq_true, bne_iff_ne, ne_eq, overlapsB, Bool.or_eq_true,
    jsGeb, jsGtb, jsLeb, Bool.not_eq_true', specThreeWayOverlap, e1, e2, e3, e4,
    parseTime_fmtHM (show a1 ≤ 99 by omega) (show b1 ≤ 99 by omega),
    parseTime_fmtHM (show a2 ≤ 99 by omega) (show b2 ≤ 99 by omega),
    parseTime_fmtHM (show a3 ≤ 99 by omega) (show b3 ≤ 99 by omega),
    parseTime_fmtHM (show a4 ≤ 99 by omega) (show b4 ≤ 99 by omega),
    jsLtb_fmtHM_iff hb3 hb2, jsLtb_fmtHM_iff hb1 hb4,
    jsLtb_fmtHM_eq_false_iff hb3 hb1, jsLtb_fmtHM_eq_false_iff hb2 hb4,
    jsLtb_fmtHM_eq_false_iff hb1 hb3, jsLtb_fmtHM_eq_false_iff hb4 hb2]
  constructor
  · rintro ⟨hid, hov⟩
    exact ⟨hid, by omega⟩
  · rintro ⟨hid, hov⟩
    exact ⟨hid, by omega⟩

theorem c1_overlap_amended_witness :
    (⟨2, [], fmtHM 8 30, fmtHM 9 30, [], [], none, none⟩ : Schedule) ∈
        findOverlappingEvents ⟨1, [], fmtHM 8 0, fmtHM 9 0, [], [], none, none⟩
          [⟨2, [], fmtHM 8 30, fmtHM 9 30, [], [], none, none⟩] ↔
      (⟨2, [], fmtHM 8 30, fmtHM 9 30, [], [], none, none⟩ : Schedule) ∈
          [(⟨2, [], fmtHM 8 30, fmtHM 9 30, [], [], none, none⟩ : Schedule)] ∧
        (2 : Int) ≠ 1 ∧
        specThreeWayOverlap ⟨1, [], fmtHM 8 0, fmtHM 9 0, [], [], none, none⟩
          ⟨2, [], fmtHM 8 30, fmtHM 9 30, [], [], none, none⟩ :=
  c1_overlap_amended _ _ _
    ⟨8, 0, by omega, by omega, rfl⟩ ⟨9, 0, by omega, by omega, rfl⟩
    ⟨8, 30, by omega, by omega, rfl⟩ ⟨9, 30, by omega, by omega, rfl⟩

/-! ### The editor's DOM model (TextEditor.tsx)

The editable region is a `<div>` whose children form the document.  Nodes are
text nodes or element nodes (tag, attributes, children); strings are
`List Char`.  A DOM range is modelled by its common container (a path of child
indices from the editor root, `[]` being the root itself) and its start/end
offsets — character offsets for a text container, child indices for an
element container.  The claims only exercise ranges whose two boundary points
share a container, which is exactly the node the source reads as
`range.commonAncestorContainer`. -/

/-- A DOM node of the editable region. -/
inductive DNode where
  | text (s : List Char)
  | elem (tag : List Char) (attrs : List (List Char × List Char)) (children : List DNode)

/-- HTML serialization of a text character (innerHTML escapes `&`, `<`, `>`). -/
def escChar (c : Char) : List Char :=
  if c = '&' then '&' :: 'a' :: 'm' :: 'p' :: [';']
  else if c = '<' then '&' :: 'l' :: 't' :: [';']
  else if c = '>' then '&' :: 'g' :: 't' :: [';']
  else [c]

/-- HTML escaping of text node data. -/
def escapeHtml (s : List Char) : List Char := s.foldr (fun c acc => escChar c ++ acc) []

/-- Serialization of one attribute (`innerHTML` quoting of attribute values is
not modelled beyond plain quoting; the claims never put `"` in a value). -/
def serAttr (a : List Char × List Char) : List Char :=
  ' ' :: a.1 ++ '=' :: '"' :: a.2 ++ ['"']

/-- Serialization of an attribute list. -/
def serAttrs (attrs : List (List Char × List Char)) : List Char :=
  attrs.foldr (fun a acc => serAttr a ++ acc) []

mutual

/-- `innerHTML`-style serialization of a node (void elements are serialized
with a closing tag; no claim's comparison depends on that). -/
def serializeNode : DNode → List Char
  | .text s => escapeHtml s
  | .elem t attrs cs =>
      '<' :: t ++ serAttrs attrs ++ '>' :: serializeList cs ++ '<' :: '/' :: t ++ ['>']

/-- Serialization of a child list; `serializeList ed` is the editor's
`innerHTML`. -/
def serializeList : List DNode → List Char
  | [] => []
  | n :: ns => serializeNode n ++ serializeList ns

end

mutual

/-- `textContent` of a node: concatenation of all text data. -/
def textContentNode : DNode → List Char
  | .text s => s
  | .elem _ _ cs => textContentList cs

/-- `textContent` of the editor (over a child list). -/
def textContentList : List DNode → List Char
  | [] => []
  | n :: ns => textContentNode n ++ textContentList ns

end

theorem serializeList_append (l1 l2 : List DNode) :
    serializeList (l1 ++ l2) = serializeList l1 ++ serializeList l2 := by
  induction l1 with
  | nil => simp [serializeList]
  | cons n ns ih => simp [serializeList, ih]

/-- Look up the node at a path of child indices (the path `[]`, i.e. the
editor root itself, is not a `DNode` and is handled by the callers). -/
def nodeAt : List DNode → List Nat → Option DNode
  | _, [] => none
  | ns, [i] => ns[i]?
  | ns, i :: j :: rest =>
    match ns[i]? with
    | some (.elem _ _ cs) => nodeAt cs (j :: rest)
    | _ => none

/-- Replace the node at a (nonempty) path by a list of nodes spliced into its
parent's child list; an invalid path leaves the tree unchanged. -/
def replaceAtPath : List DNode → List Nat → (DNode → List DNode) → List DNode
  | ns, [], _ => ns
  | ns, [i], f =>
    match ns[i]? with
    | some n => ns.take i ++ f n ++ ns.drop (i + 1)
    | none => ns
  | ns, i :: j :: rest, f =>
    match ns[i]? with
    | some (.elem t a cs) =>
        ns.take i ++ [DNode.elem t a (replaceAtPath cs (j :: rest) f)] ++ ns.drop (i + 1)
    | _ => ns

/-- `editorRef.current.contains(range.commonAncestorContainer)` for a
container addressed by a path (`contains` is inclusive, so the root path `[]`
is contained). -/
def containsPath (ns : List DNode) (p : List Nat) : Bool :=
  p == [] || (nodeAt ns p).isSome

/-- The tag of `container.parentElement`.  A depth-one container's parent is
the editor root (`div`); the editor root's own parent is the surrounding
wrapper `div` of the component. -/
def parentTag (ns : List DNode) (p : List Nat) : Option (List Char) :=
  match p with
  | [] => some ('d' :: 'i' :: ['v'])
  | [_] => some ('d' :: 'i' :: ['v'])
  | _ =>
    match nodeAt ns p.dropLast with
    | some (.elem t _ _) => some t
    | _ => none

/-- A DOM range whose boundary points share a container: character offsets if
the container is a text node, child indices if it is an element (the editor
root for the path `[]`). -/
structure DomRange where
  path : List Nat
  startOff : Nat
  endOff : Nat
deriving DecidableEq, Repr

/-- The global selection as the editor commands observe it:
no range at all (`window.getSelection()` null or `rangeCount == 0`), a range
whose container lies outside the editable region (`contains` fails), or a
range inside the editor. -/
inductive Sel where
  | noSel
  | outsideSel (r : DomRange)
  | selRange (r : DomRange)
deriving DecidableEq, Repr

/-- The zero-width space `&#8203;` used as placeholder inside empty wrappers. -/
def zwsp : Char := Char.ofNat 0x200B

/-- Increment the last step of a path (used when a text-node split shifts the
following siblings by one position). -/
def bumpLast (p : List Nat) (k : Nat) : List Nat :=
  p.dropLast ++ [p.getLastD 0 + k]

/-- `Range.insertNode(newNode)` at the collapsed start of `r`: a text
container is split at the offset with the node inserted between the halves;
an element container receives the node at the child index.  Returns the new
tree and the path of the inserted node. -/
def insertNodeAt (ed : List DNode) (r : DomRange) (newNode : DNode) :
    List DNode × List Nat :=
  match r.path with
  | [] => (ed.take r.startOff ++ [newNode] ++ ed.drop r.startOff, [r.startOff])
  | _ =>
    match nodeAt ed r.path with
    | some (.text s) =>
        (replaceAtPath ed r.path fun _ =>
          [DNode.text (s.take r.startOff), newNode, DNode.text (s.drop r.startOff)],
         bumpLast r.path 1)
    | some (.elem t a cs) =>
        (replaceAtPath ed r.path fun _ =>
          [DNode.elem t a (cs.take r.startOff ++ [newNode] ++ cs.drop r.startOff)],
         r.path ++ [r.startOff])
    | none => (ed, r.path)

/-- `range.extractContents()` into a fresh wrapper element followed by
`range.insertNode(wrapper)` (the wrap branch of `wrapSelectionWithTag`,
lines 170-178): for a text container the selected substring moves into the
wrapper and the remaining text is split around it; for an element container
the selected children move into the wrapper.  Returns the new tree and the
range produced by `selectNodeContents(newNode)`. -/
def wrapRange (ed : List DNode) (r : DomRange) (tagName : List Char) :
    List DNode × DomRange :=
  match r.path with
  | [] =>
      let inner := (ed.drop r.startOff).take (r.endOff - r.startOff)
      (ed.take r.startOff ++ [DNode.elem tagName [] inner] ++ ed.drop r.endOff,
       ⟨[r.startOff], 0, inner.length⟩)
  | _ =>
    match nodeAt ed r.path with
    | some (.text s) =>
        let mid := (s.drop r.startOff).take (r.endOff - r.startOff)
        (replaceAtPath ed r.path fun _ =>
          [DNode.text (s.take r.startOff), DNode.elem tagName [] [DNode.text mid],
           DNode.text (s.drop r.endOff)],
         ⟨bumpLast r.path 1, 0, 1⟩)
    | some (.elem t a cs) =>
        let inner := (cs.drop r.startOff).take (r.endOff - r.startOff)
        (replaceAtPath ed r.path fun _ =>
          [DNode.elem t a (cs.take r.startOff ++
            DNode.elem tagName [] inner :: cs.drop r.endOff)],
         ⟨r.path ++ [r.startOff], 0, inner.length⟩)
    | none => (ed, r)

/-- `range.deleteContents()` on a single-container range. -/
def deleteContentsAt (ed : List DNode) (r : DomRange) : List DNode :=
  match r.path with
  | [] => ed.take r.startOff ++ ed.drop r.endOff
  | _ =>
    match nodeAt ed r.path with
    | some (.text s) =>
        replaceAtPath ed r.path fun _ =>
          [DNode.text (s.take r.startOff ++ s.drop r.endOff)]
    | some (.elem t a cs) =>
        replaceAtPath ed r.path fun _ =>
          [DNode.elem t a (cs.take r.startOff ++ cs.drop r.endOff)]
    | none => ed

/-- `wrapSelectionWithTag` (TextEditor.tsx lines 150-211).

* No live selection: focus, append an empty wrapper holding a zero-width
  space at the end of the document, collapse the selection inside it.
* Selection outside the editable region: the containment check fails and, the
  `if` having no `else`, nothing happens.
* Selection inside: if the container's immediate parent element has the
  target tag (case-insensitive), unwrap it — splice its children into its own
  parent and remove it (per the DOM range-update rules the selection
  collapses to the removal point); unwrapping the editor root itself or its
  host wrapper (paths `[]`/`[i]` with a matching tag) would dismantle the
  region and is left unmodelled as a no-op.  Otherwise wrap: a non-collapsed
  range's contents are extracted into a new wrapper that is inserted and
  fully selected; a collapsed caret receives an empty wrapper holding a
  zero-width space, with the selection collapsed inside it. -/
def wrapSelectionWithTag (tagName : List Char) (ed : List DNode) (sel : Sel) :
    List DNode × Sel :=
  match sel with
  | .noSel =>
      let newNode := DNode.elem tagName [] [DNode.text [zwsp]]
      (ed ++ [newNode], .selRange ⟨[ed.length], 0, 0⟩)
  | .outsideSel r => (ed, .outsideSel r)
  | .selRange r =>
    if containsPath ed r.path then
      match parentTag ed r.path with
      | some pt =>
        if pt.map Char.toLower == tagName.map Char.toLower then
          match r.path with
          | [] => (ed, .selRange r)
          | [_] => (ed, .selRange r)
          | _ =>
            let pp := r.path.dropLast
            match nodeAt ed pp with
            | some (.elem _ _ cs) =>
                (replaceAtPath ed pp fun n =>
                  match n with
                  | .elem _ _ cs' => cs'
                  | n' => [n'],
                 .selRange ⟨pp.dropLast, pp.getLastD 0 + cs.length,
                   pp.getLastD 0 + cs.length⟩)
            | _ => (ed, .selRange r)
        else
          if r.startOff == r.endOff then
            let newNode := DNode.elem tagName [] [DNode.text [zwsp]]
            let res := insertNodeAt ed r newNode
            (res.1, .selRange ⟨res.2, 0, 0⟩)
          else
            let res := wrapRange ed r tagName
            (res.1, .selRange res.2)
      | none => (ed, .selRange r)
    else (ed, .selRange r)

/-- A DOM exception raised by a mutation primitive. -/
inductive DomErr where
  | domException
deriving DecidableEq, Repr

/-- `wrapSelectionWithTag` with the environment's failure behaviour made
explicit: `throws` states that the DOM mutation performed on this attempt
throws.  The source wraps none of its mutations in `try`/`catch`, so in every
branch that mutates (every branch except the failed containment check) the
exception propagates to the caller. -/
def wrapSelectionWithTagX (throws : Bool) (tagName : List Char) (ed : List DNode)
    (sel : Sel) : Except DomErr (List DNode × Sel) :=
  match sel with
  | .outsideSel r => .ok (ed, .outsideSel r)
  | .selRange r =>
    if containsPath ed r.path then
      if throws then .error .domException
      else .ok (wrapSelectionWithTag tagName ed sel)
    else .ok (ed, .selRange r)
  | .noSel =>
    if throws then .error .domException
    else .ok (wrapSelectionWithTag tagName ed sel)

/-- The anchor element built from `linkHTML` (line 244) and parsed by the
`tempDiv.innerHTML` round-trip (lines 254-256); the claims only use link
texts without markup, so the text parses to a single text node. -/
def linkNode (processedUrl linkText : List Char) : DNode :=
  DNode.elem ('a' :: [])
    [(('h' :: 'r' :: 'e' :: ['f']), processedUrl),
     (('s' :: 't' :: 'y' :: 'l' :: ['e']),
       "color: #3b82f6; text-decoration: underline;".data),
     (('t' :: 'a' :: 'r' :: 'g' :: 'e' :: ['t']), "_blank".data),
     (('r' :: 'e' :: ['l']), "noopener noreferrer".data)]
    [DNode.text linkText]

/-- The image element built from `imgHTML` (line 286). -/
def imgNode (processedUrl imageAlt : List Char) : DNode :=
  DNode.elem ('i' :: 'm' :: ['g'])
    [(('s' :: 'r' :: ['c']), processedUrl),
     (('a' :: 'l' :: ['t']), if imageAlt = [] then "Image".data else imageAlt),
     (('s' :: 't' :: 'y' :: 'l' :: ['e']),
       "max-width: 100%; height: auto; border-radius: 8px; margin: 10px 0; display: block;".data)]
    []

/-- `linkUrlHandler ? linkUrlHandler(linkUrl) : linkUrl` (line 240). -/
def applyHandler (h : Option (List Char → List Char)) (u : List Char) : List Char :=
  match h with
  | some f => f u
  | none => u

/-- `insertLink` (lines 238-278), with the environment's failure behaviour
made explicit.  The guard requires non-empty URL and text.  The whole
selection-read-and-insert block sits inside `try`/`catch`; the `catch` body
appends the link HTML at the end of the document (`insertAdjacentHTML`,
line 270) and logs nothing.  The second component of the result is the list
of warnings logged during the call — always empty, since the source contains
no logging.  The result is never an exception. -/
def insertLinkX (throws : Bool) (linkUrlHandler : Option (List Char → List Char))
    (linkUrl linkText : List Char) (ed : List DNode) (sel : Sel) :
    Except DomErr (List DNode × List (List Char)) :=
  if linkUrl = [] ∨ linkText = [] then .ok (ed, [])
  else
    let node := linkNode (applyHandler linkUrlHandler linkUrl) linkText
    if throws then .ok (ed ++ [node], [])
    else
      .ok (match sel with
        | .selRange r =>
          if containsPath ed r.path then
            let ed1 := deleteContentsAt ed r
            (insertNodeAt ed1 ⟨r.path, r.startOff, r.startOff⟩ node).1
          else ed ++ [node]
        | _ => ed ++ [node], [])

/-- `insertImage` (lines 280-321); same structure as `insertLink`, guarded
only by a non-empty image URL. -/
def insertImageX (throws : Bool) (imageUrlHandler : Option (List Char → List Char))
    (imageUrl imageAlt : List Char) (ed : List DNode) (sel : Sel) :
    Except DomErr (List DNode × List (List Char)) :=
  if imageUrl = [] then .ok (ed, [])
  else
    let node := imgNode (applyHandler imageUrlHandler imageUrl) imageAlt
    if throws then .ok (ed ++ [node], [])
    else
      .ok (match sel with
        | .selRange r =>
          if containsPath ed r.path then
            let ed1 := deleteContentsAt ed r
            (insertNodeAt ed1 ⟨r.path, r.startOff, r.startOff⟩ node).1
          else ed ++ [node]
        | _ => ed ++ [node], [])

/-- JavaScript whitespace for `String.prototype.trim` (ASCII fragment; the
claims only trim serialized markup). -/
def isSpaceChar (c : Char) : Bool := c = ' ' ∨ c = '\t' ∨ c = '\n' ∨ c = '\r'

/-- `String.prototype.trim`. -/
def trimChars (l : List Char) : List Char :=
  ((l.dropWhile isSpaceChar).reverse.dropWhile isSpaceChar).reverse

/-- `applyFormat` (lines 504-533).  The host's generic
`document.execCommand(command, false, value)` primitive is an external
collaborator and is passed in as `exec`.  The function performs *no*
containment check on the current selection: after the disabled guard it
focuses the editor, seeds placeholder content when the document is empty (for
`justify*` and the two list commands — replacing the selection with one
inside the seeded block), and dispatches to `exec` unconditionally. -/
def applyFormat (exec : List Char → Option (List Char) → List DNode → Sel → List DNode × Sel)
    (disabled : Bool) (command : List Char) (value : Option (List Char))
    (ed : List DNode) (sel : Sel) : List DNode × Sel :=
  if disabled then (ed, sel)
  else
    let seeded :=
      if List.isPrefixOf "justify".data command ∧ trimChars (serializeList ed) = [] then
        ([DNode.elem ('d' :: 'i' :: ['v']) [] [DNode.elem ('b' :: ['r']) [] []]],
         Sel.selRange ⟨[0], 0, 0⟩)
      else if (command = "insertOrderedList".data ∨ command = "insertUnorderedList".data) ∧
          trimChars (serializeList ed) = [] then
        ([DNode.elem ('d' :: 'i' :: ['v']) [] [DNode.text "List item".data]],
         Sel.selRange ⟨[0], 0, 1⟩)
      else (ed, sel)
    exec command value seeded.1 seeded.2

/-- Layout direction of the editable surface. -/
inductive Direction where
  | ltr
  | rtl
deriving DecidableEq, Repr

/-- Text alignment set together with the direction. -/
inductive TextAlignment where
  | left
  | right
deriving DecidableEq, Repr

/-- The test `/[؀-ۿݐ-ݿ]/.test(textContent)`
(line 133-134): the character class covers exactly the Arabic and
Arabic-Supplement code-point ranges. -/
def arabicTest (s : List Char) : Bool :=
  s.any fun c =>
    (decide (0x600 ≤ c.toNat) && decide (c.toNat ≤ 0x6FF)) ||
    (decide (0x750 ≤ c.toNat) && decide (c.toNat ≤ 0x77F))

/-- `handleChange` (lines 128-147): recompute the writing direction and text
alignment from the surface's current plain-text content and emit the
serialized document through `onChange`.  Returns
(direction, text-align, emitted innerHTML). -/
def handleChange (ed : List DNode) : Direction × TextAlignment × List Char :=
  let textContent := textContentList ed
  if arabicTest textContent then (.rtl, .right, serializeList ed)
  else (.ltr, .left, serializeList ed)

/-! ### Claim C9: writing-direction detection -/

/-- The spec's script ranges: Arabic (U+0600–U+06FF) and Arabic Supplement
(U+0750–U+077F), written from the spec's words. -/
def specArabicRange (c : Char) : Prop :=
  (0x600 ≤ c.toNat ∧ c.toNat ≤ 0x6FF) ∨ (0x750 ≤ c.toNat ∧ c.toNat ≤ 0x77F)

/-- C9: on every content change the editor sets direction right-to-left and
alignment right iff the surface's plain-text content contains a character in
the Arabic/Arabic-Supplement ranges, and otherwise sets left-to-right and
left. -/
theorem c9_direction_detection (ed : List DNode) :
    (((handleChange ed).1 = Direction.rtl ∧
        (handleChange ed).2.1 = TextAlignment.right) ↔
      ∃ c ∈ textContentList ed, specArabicRange c) ∧
    (((handleChange ed).1 = Direction.ltr ∧
        (handleChange ed).2.1 = TextAlignment.left) ↔
      ¬ ∃ c ∈ textContentList ed, specArabicRange c) := by
  have key : (arabicTest (textContentList ed) = true) ↔
      ∃ c ∈ textContentList ed, specArabicRange c := by
    simp [arabicTest, List.any_eq_true, specArabicRange]
  constructor
  · rw [← key]
    unfold handleChange
    cases h : arabicTest (textContentList ed) <;> simp [h]
  · rw [← key]
    unfold handleChange
    cases h : arabicTest (textContentList ed) <;> simp [h]

/-! ### Claim C2: failure semantics of the mutation commands -/

/-- C2 counterexample: `wrapSelectionWithTag` performs its DOM mutations with
no `try`/`catch`, so a throwing mutation propagates to the caller instead of
being caught, logged and turned into a no-op.  Concretely: a valid in-editor
selection over the text node `"x"`, mutation attempt throws. -/
theorem c2_counterexample :
    wrapSelectionWithTagX true ('s' :: 't' :: 'r' :: 'o' :: 'n' :: ['g'])
        [DNode.text ['x']] (Sel.selRange ⟨[0], 0, 1⟩)
      = .error DomErr.domException := rfl

/-- C2 (amended): only the link and image insertion commands guard their DOM
mutation with a catch; a throw there is swallowed with *no* warning logged
and the command falls back to appending the built element at the end of the
document (not a no-op), and these two commands never propagate an exception;
the other mutation commands, such as the toggle-wrap command, have no handler
and propagate a throwing DOM mutation to the caller. -/
theorem c2_error_handling_amended :
    (∀ throws h u t ed sel, ∃ res, insertLinkX throws h u t ed sel = .ok res) ∧
    (∀ throws h u a ed sel, ∃ res, insertImageX throws h u a ed sel = .ok res) ∧
    (∀ h u t ed sel, u ≠ [] → t ≠ [] →
      insertLinkX true h u t ed sel = .ok (ed ++ [linkNode (applyHandler h u) t], [])) ∧
    (∀ h u a ed sel, u ≠ [] →
      insertImageX true h u a ed sel = .ok (ed ++ [imgNode (applyHandler h u) a], [])) ∧
    (∀ tag ed r, containsPath ed r.path = true →
      wrapSelectionWithTagX true tag ed (Sel.selRange r) = .error DomErr.domException) := by
  refine ⟨?_, ?_, ?_, ?_, ?_⟩
  · intro throws h u t ed sel
    unfold insertLinkX
    split_ifs <;> exact ⟨_, rfl⟩
  · intro throws h u a ed sel
    unfold insertImageX
    split_ifs <;> exact ⟨_, rfl⟩
  · intro h u t ed sel hu ht
    simp [insertLinkX, hu, ht]
  · intro h u a ed sel hu
    simp [insertImageX, hu]
  · intro tag ed r hc
    simp [wrapSelectionWithTagX, hc]

theorem c2_error_handling_amended_witness :
    (('u' :: []) ≠ ([] : List Char)) ∧ (('t' :: []) ≠ ([] : List Char)) ∧
    insertLinkX true none ['u'] ['t'] [] Sel.noSel
      = .ok ([linkNode (applyHandler none ['u']) ['t']], []) ∧
    containsPath [DNode.text ['x']] [0] = true ∧
    wrapSelectionWithTagX true ('e' :: ['m']) [DNode.text ['x']]
        (Sel.selRange ⟨[0], 0, 1⟩)
      = .error DomErr.domException :=
  ⟨by decide, by decide,
   c2_error_handling_amended.2.2.1 none ['u'] ['t'] [] Sel.noSel
     (by decide) (by decide),
   by decide,
   c2_error_handling_amended.2.2.2.2 ('e' :: ['m']) [DNode.text ['x']]
     ⟨[0], 0, 1⟩ (by decide)⟩

/-! ### Claim C3: containment checks of the mutation entry points -/

/-- C3 counterexample: `applyFormat` performs no containment check at all.
With the selection outside the editable region and an empty document, the
`justifyLeft` command still mutates the document: it seeds the placeholder
block `<div><br></div>` before dispatching `execCommand` (here instantiated
with an `execCommand` that performs no mutation, as for an unsupported
command).  The claim's required no-op does not happen. -/
theorem c3_counterexample :
    (applyFormat (fun _ _ ed sel => (ed, sel)) false
        "justifyLeft".data none [] (Sel.outsideSel ⟨[], 0, 0⟩)).1
      = [DNode.elem ('d' :: 'i' :: ['v']) [] [DNode.elem ('b' :: ['r']) [] []]] ∧
    (applyFormat (fun _ _ ed sel => (ed, sel)) false
        "justifyLeft".data none [] (Sel.outsideSel ⟨[], 0, 0⟩)).1 ≠ [] := by
  refine ⟨rfl, ?_⟩
  rw [show (applyFormat (fun _ _ ed sel => (ed, sel)) false
      "justifyLeft".data none [] (Sel.outsideSel ⟨[], 0, 0⟩)).1
    = [DNode.elem ('d' :: 'i' :: ['v']) [] [DNode.elem ('b' :: ['r']) [] []]] from rfl]
  exact List.cons_ne_nil _ _

/-- C3 (amended): `wrapSelectionWithTag` checks that the selection's common
ancestor lies in the editable region and no-ops when it does not; link and
image insertion check it and fall back to appending at the end of the
document; but the `applyFormat`-delegating commands (alignment, lists, font
size, colors, undo/redo) perform no containment check — e.g. `justifyLeft`
on an empty document with an outside selection still seeds a placeholder
block and mutates the document. -/
theorem c3_containment_amended :
    (∀ tag ed r, wrapSelectionWithTag tag ed (Sel.outsideSel r) = (ed, Sel.outsideSel r)) ∧
    (∀ throws h u t ed r, u ≠ [] → t ≠ [] →
      insertLinkX throws h u t ed (Sel.outsideSel r)
        = .ok (ed ++ [linkNode (applyHandler h u) t], [])) ∧
    (∀ throws h u a ed r, u ≠ [] →
      insertImageX throws h u a ed (Sel.outsideSel r)
        = .ok (ed ++ [imgNode (applyHandler h u) a], [])) ∧
    (applyFormat (fun _ _ ed sel => (ed, sel)) false
        "justifyLeft".data none [] (Sel.outsideSel ⟨[], 0, 0⟩)).1 ≠ [] := by
  refine ⟨?_, ?_, ?_, ?_⟩
  · intro tag ed r
    rfl
  · intro throws h u t ed r hu ht
    simp only [insertLinkX, if_neg (by tauto : ¬(u = [] ∨ t = []))]
    cases throws <;> rfl
  · intro throws h u a ed r hu
    simp only [insertImageX, if_neg hu]
    cases throws <;> rfl
  · rw [show (applyFormat (fun _ _ ed sel => (ed, sel)) false
        "justifyLeft".data none [] (Sel.outsideSel ⟨[], 0, 0⟩)).1
      = [DNode.elem ('d' :: 'i' :: ['v']) [] [DNode.elem ('b' :: ['r']) [] []]] from rfl]
    exact List.cons_ne_nil _ _

theorem c3_containment_amended_witness :
    wrapSelectionWithTag ('e' :: ['m']) [DNode.text ['x']] (Sel.outsideSel ⟨[9], 0, 0⟩)
      = ([DNode.text ['x']], Sel.outsideSel ⟨[9], 0, 0⟩) ∧
    (('u' :: []) ≠ ([] : List Char)) ∧
    insertLinkX false none ['u'] ['t'] [] (Sel.outsideSel ⟨[9], 0, 0⟩)
      = .ok ([linkNode (applyHandler none ['u']) ['t']], []) :=
  ⟨c3_containment_amended.1 ('e' :: ['m']) [DNode.text ['x']] ⟨[9], 0, 0⟩,
   by decide,
   c3_containment_amended.2.1 false none ['u'] ['t'] [] ⟨[9], 0, 0⟩
     (by decide) (by decide)⟩

/-! ### Claim C4: toggle-wrap idempotence -/

theorem getElem?_middle (pre post : List DNode) (x : DNode) :
    (pre ++ x :: post)[pre.length]? = some x := by
  rw [List.getElem?_append_right (le_refl pre.length)]
  simp

theorem replaceAtPath_middle (pre post : List DNode) (x : DNode)
    (f : DNode → List DNode) :
    replaceAtPath (pre ++ x :: post) [pre.length] f = pre ++ f x ++ post := by
  have hdrop : (pre ++ x :: post).drop (pre.length + 1) = post := by
    have : pre ++ x :: post = (pre ++ [x]) ++ post := by simp
    rw [this, show pre.length + 1 = (pre ++ [x]).length by simp, List.drop_left]
  have htake : (pre ++ x :: post).take pre.length = pre := by
    have : pre ++ x :: post = pre ++ (x :: post) := rfl
    rw [this, List.take_left]
  simp only [replaceAtPath, getElem?_middle, htake, hdrop]

/-- C4: toggling the same inline wrap twice over a fully selected span of
that format restores the serialized document.  Starting from a document
whose child `i = pre.length` is `<t>s</t>` with the text fully selected, the
first application unwraps (leaving the bare text node at index `i`); with
the selection again covering that text in full, the second application wraps
it back, and the serialized form equals the original (the split leaves two
empty text nodes, which serialize to nothing). -/
theorem c4_toggle_wrap_idempotent (t s : List Char) (pre post : List DNode)
    (hs : s ≠ []) (ht : t.map Char.toLower ≠ ('d' :: 'i' :: ['v'])) :
    serializeList
        (wrapSelectionWithTag t
          (wrapSelectionWithTag t (pre ++ DNode.elem t [] [DNode.text s] :: post)
            (Sel.selRange ⟨[pre.length, 0], 0, s.length⟩)).1
          (Sel.selRange ⟨[pre.length], 0, s.length⟩)).1
      = serializeList (pre ++ DNode.elem t [] [DNode.text s] :: post) := by
  set ed0 := pre ++ DNode.elem t [] [DNode.text s] :: post with hed0
  have hget : ed0[pre.length]? = some (DNode.elem t [] [DNode.text s]) :=
    getElem?_middle pre post _
  have hnode2 : nodeAt ed0 [pre.length, 0] = some (DNode.text s) := by
    simp [nodeAt, hget]
  have hcont : containsPath ed0 [pre.length, 0] = true := by
    simp [containsPath, hnode2]
  have hpar : parentTag ed0 [pre.length, 0] = some t := by
    simp [parentTag, nodeAt, hget]
  have h1 : (wrapSelectionWithTag t ed0
      (Sel.selRange ⟨[pre.length, 0], 0, s.length⟩)).1 = pre ++ DNode.text s :: post := by
    simp only [wrapSelectionWithTag, hcont, if_true, hpar, beq_self_eq_true, if_pos,
      List.dropLast, nodeAt, hget]
    rw [hed0, replaceAtPath_middle]
    simp
  rw [h1]
  set ed1 := pre ++ DNode.text s :: post with hed1
  have hget1 : ed1[pre.length]? = some (DNode.text s) := getElem?_middle pre post _
  have hcont1 : containsPath ed1 [pre.length] = true := by
    simp [containsPath, nodeAt, hget1]
  have hpar1 : parentTag ed1 [pre.length] = some ('d' :: 'i' :: ['v']) := rfl
  have hdiv : ('d' :: 'i' :: ['v']).map Char.toLower = ('d' :: 'i' :: ['v']) := by decide
  have hbeq : (('d' :: 'i' :: ['v']).map Char.toLower == t.map Char.toLower) = false := by
    rw [hdiv]
    exact beq_eq_false_iff_ne.mpr fun hh => ht hh.symm
  have hoff : ((0 : Nat) == s.length) = false :=
    beq_eq_false_iff_ne.mpr fun hh => hs (List.length_eq_zero.mp hh.symm)
  have h2 : (wrapSelectionWithTag t ed1 (Sel.selRange ⟨[pre.length], 0, s.length⟩)).1
      = pre ++ DNode.text [] :: DNode.elem t [] [DNode.text s] :: DNode.text [] :: post := by
    simp only [wrapSelectionWithTag, hcont1, if_true, hpar1, hbeq, Bool.false_eq_true,
      if_false, hoff, wrapRange, nodeAt, hget1, List.drop_zero, Nat.sub_zero,
      List.take_length, List.take_zero, List.drop_length]
    rw [hed1, replaceAtPath_middle]
    simp
  rw [h2, hed0]
  rw [show pre ++ DNode.text [] :: DNode.elem t [] [DNode.text s] :: DNode.text [] :: post
      = pre ++ (DNode.text [] :: DNode.elem t [] [DNode.text s] :: DNode.text [] :: []) ++ post
    by simp]
  rw [show pre ++ DNode.elem t [] [DNode.text s] :: post
      = pre ++ (DNode.elem t [] [DNode.text s] :: []) ++ post by simp]
  rw [serializeList_append, serializeList_append, serializeList_append, serializeList_append]
  simp [serializeList, serializeNode, escapeHtml]

theorem c4_toggle_wrap_idempotent_witness :
    (('x' :: []) ≠ ([] : List Char)) ∧
    (('s' :: 't' :: 'r' :: 'o' :: 'n' :: ['g']).map Char.toLower
      ≠ ('d' :: 'i' :: ['v'])) ∧
    serializeList
        (wrapSelectionWithTag ('s' :: 't' :: 'r' :: 'o' :: 'n' :: ['g'])
          (wrapSelectionWithTag ('s' :: 't' :: 'r' :: 'o' :: 'n' :: ['g'])
            ([] ++ DNode.elem ('s' :: 't' :: 'r' :: 'o' :: 'n' :: ['g']) []
              [DNode.text ['x']] :: [])
            (Sel.selRange ⟨[List.length ([] : List DNode), 0], 0,
              List.length ['x']⟩)).1
          (Sel.selRange ⟨[List.length ([] : List DNode)], 0, List.length ['x']⟩)).1
      = serializeList ([] ++ DNode.elem ('s' :: 't' :: 'r' :: 'o' :: 'n' :: ['g']) []
          [DNode.text ['x']] :: []) :=
  ⟨by decide, by decide,
   c4_toggle_wrap_idempotent ('s' :: 't' :: 'r' :: 'o' :: 'n' :: ['g']) ['x'] [] []
     (by decide) (by decide)⟩

end StockfishComponents
